import Mathlib

/- Verification of the morphological-metrics library (Polansky 1996 contour and
magnitude metrics between two numeric sequences).

Modelling conventions.  A JS numeric sequence is a `List ℚ`.  A JS number in a
position where NaN can arise (for instance after arithmetic on the `undefined`
produced by reading past the end of an array) is modelled as `Option ℚ`, with
`none` standing for NaN; the arithmetic helpers below propagate `none` exactly
as JS arithmetic propagates NaN.  Division by zero is also mapped to `none`:
the only zero denominators reachable in the modelled operations are the
`0 / 0` (NaN) and `NaN` cases.  Functions that can `throw` return
`Except String`, carrying the source's error message. -/

/-- A JS number that may be NaN: `none` models NaN (or an `undefined` operand,
which JS arithmetic immediately turns into NaN). -/
abbrev JsNum := Option ℚ

/-- JS addition, propagating NaN. -/
def jAdd : JsNum → JsNum → JsNum
  | some a, some b => some (a + b)
  | _, _ => none

/-- JS subtraction, propagating NaN. -/
def jSub : JsNum → JsNum → JsNum
  | some a, some b => some (a - b)
  | _, _ => none

/-- JS multiplication, propagating NaN. -/
def jMul : JsNum → JsNum → JsNum
  | some a, some b => some (a * b)
  | _, _ => none

/-- JS division, propagating NaN; a zero denominator is mapped to `none`
(the reachable zero-denominator cases in this development are `0 / 0` and
divisions by NaN, both NaN in JS). -/
def jDiv : JsNum → JsNum → JsNum
  | some a, some b => if b = 0 then none else some (a / b)
  | _, _ => none

/-- `Math.abs`, propagating NaN. -/
def jAbs : JsNum → JsNum
  | some a => some |a|
  | none => none

/-- `Math.max` on two arguments; `Math.max` returns NaN when any argument is
NaN. -/
def jMax : JsNum → JsNum → JsNum
  | some a, some b => some (max a b)
  | _, _ => none

/-- `list.reduce((a, b) => a + b, 0)` over JS numbers: a left fold of `jAdd`
starting from 0. -/
def jSum (l : List JsNum) : JsNum := l.foldl jAdd (some 0)

/-- The default comparator `(a, b) => Math.abs(a - b)` lifted to JS numbers
that may be NaN or undefined. -/
def deltaAbs (a b : JsNum) : JsNum := jAbs (jSub a b)

/-- The default comparator `(a, b) => Math.abs(a - b)` on plain numbers, used
where no NaN can reach it. -/
def deltaQAbs (a b : ℚ) : ℚ := |a - b|

/-- `delta.sgn` (Polansky pg. 311): 1 when the pair goes down (`a > b`), 0 when
it stays, -1 when it goes up. -/
def sgn (a b : ℚ) : ℤ :=
  if a > b then 1 else if a = b then 0 else -1

/-- `delta.diff`: `Number(a !== b)` on two sign classifications.  The second
argument is an `Option` because the callers index a possibly shorter array; a
number is always `!==` `undefined`, so a missing right operand yields 1. -/
def diffSgn (a : ℤ) : Option ℤ → ℚ
  | some b => if a = b then 0 else 1
  | none => 1

/-- `Lm` (Polansky pg. 307): number of pairwise relationships of a length-`l`
morphology, `(l ** 2 - l) / 2`. -/
def Lm (l : ℚ) : ℚ := (l ^ 2 - l) / 2

/-- The first-difference transform used by `derivate` for one order:
`data.slice(1).map((_, i) => data[i + 1] - data[i])`. -/
def diff1 (l : List ℚ) : List ℚ := (l.zip l.tail).map fun p => p.2 - p.1

/-- `out.map(n => Math.abs(n))`. -/
def absList (l : List ℚ) : List ℚ := l.map fun x => |x|

/-- The computational core of `Morph.derivate` once its two guards have passed
(the guards of the source's recursive calls are then always satisfied, so the
recursion is total): order 0 returns the data, order 1 the first difference of
the data, order `k + 2` the first difference of the order-`k + 1` result; when
`absolute` is set the result of every level is mapped through `Math.abs`. -/
def derivateCore (data : List ℚ) (absolute : Bool) : ℕ → List ℚ
  | 0 => if absolute then absList data else data
  | 1 => if absolute then absList (diff1 data) else diff1 data
  | k + 2 =>
    let d := derivateCore data absolute (k + 1)
    if absolute then absList (diff1 d) else diff1 d

/-- A `Morph`: an ordered sequence of numbers; the constructor guarantees at
least 2 elements, carried here as an invariant. -/
structure Morph where
  data : List ℚ
  two_le : 2 ≤ data.length

/-- The `Morph` constructor: throws when the sequence has fewer than 2
elements. -/
def mkMorph (data : List ℚ) : Except String Morph :=
  if h : data.length < 2 then
    Except.error "Arrays must have at least 2 elements"
  else
    Except.ok ⟨data, by omega⟩

/-- `Morph.derivate(order, absolute)`: the order-`n` difference of the data.
Throws when `data.length - order < 1` and when `order < 0`, in that order,
with the source's messages. -/
def Morph.derivate (m : Morph) (order : ℤ) (absolute : Bool) :
    Except String (List ℚ) :=
  if (m.data.length : ℤ) - order < 1 then
    Except.error "Order must be less than the length of the array"
  else if order < 0 then
    Except.error "Order must be greater than 0"
  else
    Except.ok (derivateCore m.data absolute order.toNat)

/-- `Morph.firstOrderAbsoluteInterval`: `derivate(1, true)`. -/
def Morph.firstOrderAbsoluteInterval (m : Morph) : Except String (List ℚ) :=
  m.derivate 1 true

/-- `Morph.secondOrderAbsoluteInterval`: `derivate(2, true)`. -/
def Morph.secondOrderAbsoluteInterval (m : Morph) : Except String (List ℚ) :=
  m.derivate 2 true

/-- `Morph.directionInterval`:
`data.slice(1).map((d, i) => delta.sgn(data[i], d))`, i.e. `sgn` of each
adjacent pair. -/
def Morph.directionInterval (m : Morph) : List ℤ :=
  (m.data.zip m.data.tail).map fun p => sgn p.1 p.2

/-- Sum of the three slots of a contour vector. -/
def sum3 (v : ℕ × ℕ × ℕ) : ℕ := v.1 + v.2.1 + v.2.2

/-- `Morph.linearContourVector`: classify each order-1 derivative value by its
own sign (positive, zero, negative).  `derivate(1)` cannot throw for a valid
`Morph` (length at least 2), so the core is used directly. -/
def Morph.linearContourVector (m : Morph) : ℕ × ℕ × ℕ :=
  (derivateCore m.data false 1).foldl
    (fun lcv ai =>
      if ai > 0 then (lcv.1 + 1, lcv.2.1, lcv.2.2)
      else if ai = 0 then (lcv.1, lcv.2.1 + 1, lcv.2.2)
      else (lcv.1, lcv.2.1, lcv.2.2 + 1))
    (0, 0, 0)

/-- The combinatorial-interval pairs `(data[i], data[j])` for `0 ≤ i < j < len`
in index order: the nested loops of `generateIntervals`'s
`'combinatorial interval'` branch. -/
def combPairs (data : List ℚ) : List (ℚ × ℚ) :=
  (List.range (data.length - 1)).flatMap fun i =>
    (List.range' (i + 1) (data.length - (i + 1))).map fun j =>
      (data.getD i 0, data.getD j 0)

/-- The adjacency-interval pairs `(data[i], data[i + k])` for
`0 ≤ i < len - k`. -/
def adjacencyPairs (data : List ℚ) (k : ℕ) : List (ℚ × ℚ) :=
  (List.range (data.length - k)).map fun i => (data.getD i 0, data.getD (i + k) 0)

/-- `Math.max(...data)` for a nonempty list. -/
def listMax : List ℚ → ℚ
  | [] => 0
  | x :: xs => xs.foldl max x

/-- `Morph.combinatorialContourVector`: classify `b - a` for every
combinatorial pair `(a, b)`. -/
def Morph.combinatorialContourVector (m : Morph) : ℕ × ℕ × ℕ :=
  (combPairs m.data).foldl
    (fun ccv p =>
      if p.2 - p.1 > 0 then (ccv.1 + 1, ccv.2.1, ccv.2.2)
      else if p.2 - p.1 = 0 then (ccv.1, ccv.2.1 + 1, ccv.2.2)
      else (ccv.1, ccv.2.1, ccv.2.2 + 1))
    (0, 0, 0)

/-- The six interval index forms of `generateIntervals`. -/
inductive IntervalIndexForm
  | adjacencyInterval
  | fundamentalIndex
  | fundamentalValue
  | meanFundamentalValue
  | maxFundamentalValue
  | combinatorialInterval
deriving DecidableEq

/-- `Morph.generateIntervals({form, adjacencyInterval, fundamentalValue,
fundamentalIndex})` (Polansky pg. 304): the six pair-generation strategies,
with the source's error cases for the fundamental forms. -/
def Morph.generateIntervals (m : Morph) (form : IntervalIndexForm)
    (adjacencyInterval : ℕ) (fundamentalValue : Option ℚ)
    (fundamentalIndex : Option ℕ) : Except String (List (ℚ × ℚ)) :=
  match form with
  | .adjacencyInterval => Except.ok (adjacencyPairs m.data adjacencyInterval)
  | .fundamentalIndex =>
    match fundamentalIndex with
    | none => Except.error "Fundamental index must be defined"
    | some fi =>
      if fi > m.data.length - 1 then
        Except.error "Fundamental index must be less than the array length"
      else
        Except.ok (m.data.map fun x => (x, m.data.getD fi 0))
  | .fundamentalValue =>
    match fundamentalValue with
    | none => Except.error "Fundamental value must be defined"
    | some v => Except.ok (m.data.map fun x => (x, v))
  | .meanFundamentalValue =>
    let mean := m.data.sum / (m.data.length : ℚ)
    Except.ok (m.data.map fun x => (x, mean))
  | .maxFundamentalValue =>
    let mx := listMax m.data
    Except.ok (m.data.map fun x => (x, mx))
  | .combinatorialInterval => Except.ok (combPairs m.data)

/-- `data.slice(1).map((x, i) => delta(data[i], x))`: each adjacent pair sent
through a comparator, the common first step of the canonical OLM/ULM family. -/
def adjacentDeltas (dl : ℚ → ℚ → ℚ) (data : List ℚ) : List ℚ :=
  (data.zip data.tail).map fun p => dl p.1 p.2

/-- A `MorphologicalMetric`: a pair of Morphs plus the `ordered` mode flag. -/
structure MorphologicalMetric where
  morphs : Morph × Morph
  ordered : Bool

/-- The `MorphologicalMetric` constructor: ordered metrics must have operands
with the same number of points. -/
def mkMorphologicalMetric (morphs : Morph × Morph) (ordered : Bool) :
    Except String MorphologicalMetric :=
  if ordered = true ∧ morphs.1.data.length ≠ morphs.2.data.length then
    Except.error "Ordered mms must have the same number of points"
  else
    Except.ok ⟨morphs, ordered⟩

/-- The three scaling modes `'none' | 'absolute' | 'relative'`. -/
inductive Scaling
  | none
  | absolute
  | relative
deriving DecidableEq

/-- `OLMOriginal` (ordered linear magnitude, Polansky pg. 300-301), restricted
to `squared = false` (the squared form takes a real square root, outside the
rational model; no claim exercises it).  Throws when the metric is not
ordered, then when `order < 1`; the per-pair comparison is
`Math.abs(Math.abs(mDelta) - Math.abs(nDelta))` over the order-`order`
absolute derivatives, and the sum is divided by `data.length - order`. -/
def MorphologicalMetric.OLMOriginal (mm : MorphologicalMetric) (order : ℤ) :
    Except String JsNum := do
  if mm.ordered = false then
    throw "Morphs must be ordered for OLM"
  if order < 1 then
    throw "Order must be greater than 0"
  let m := mm.morphs.1
  let n := mm.morphs.2
  let mDeriv ← m.derivate order true
  let nDeriv ← n.derivate order true
  let out := jSum ((List.range mDeriv.length).map fun i =>
    jAbs (jSub (jAbs (some (mDeriv.getD i 0))) (jAbs nDeriv[i]?)))
  return jDiv out (some ((m.data.length : ℚ) - (order : ℚ)))

/-- `SobalevOLM` (Polansky pg. 300).  Throws when not ordered, then when
`maxOrder - minOrder < 1`; an omitted `weights` defaults to
`Array(maxOrder - minOrder).fill(1)` while a supplied one must have length
`maxOrder - minOrder + 1`.  For each order `i` in `minOrder..maxOrder` the mean
of `Math.abs(mDeriv[j] - nDeriv[j])` over the order-`i` absolute derivatives is
formed; the weighted sums `normedSums[i] * weights[i]` (reading `weights` past
its end yields an undefined operand, hence NaN) are summed and divided by the
sum of the weights. -/
def MorphologicalMetric.SobalevOLM (mm : MorphologicalMetric)
    (maxOrder minOrder : ℕ) (weights : Option (List ℚ)) :
    Except String JsNum := do
  if mm.ordered = false then
    throw "Morphs must be ordered for SobalevOLM"
  if maxOrder - minOrder < 1 then
    throw "Max order must be greater than min order"
  let w : List ℚ ←
    match weights with
    | none => pure (List.replicate (maxOrder - minOrder) 1)
    | some ws =>
      if ws.length ≠ maxOrder - minOrder + 1 then
        throw "Weights must be the same length as the number of orders"
      else
        pure ws
  let m := mm.morphs.1
  let n := mm.morphs.2
  let normedSums : List JsNum ←
    (List.range' minOrder (maxOrder - minOrder + 1)).mapM fun i => do
      let mDeriv ← m.derivate i true
      let nDeriv ← n.derivate i true
      let s := jSum ((List.range mDeriv.length).map fun j =>
        jAbs (jSub (some (mDeriv.getD j 0)) nDeriv[j]?))
      return jDiv s (some (mDeriv.length : ℚ))
  let weightedSums := (List.range normedSums.length).map fun i =>
    jMul (normedSums.getD i none) (w[i]? : Option ℚ)
  let summedWeights := w.sum
  return jDiv (jSum weightedSums) (some summedWeights)

/-- `OLMGeneral` (Polansky pg. 302): mean of `delta(mDeriv[i], nDeriv[i])`
over the order-`order` absolute derivatives; performs no `ordered` check. -/
def MorphologicalMetric.OLMGeneral (mm : MorphologicalMetric)
    (dl : JsNum → JsNum → JsNum) (order : ℤ) : Except String JsNum := do
  let m := mm.morphs.1
  let n := mm.morphs.2
  let mDeriv ← m.derivate order true
  let nDeriv ← n.derivate order true
  let out := jSum ((List.range mDeriv.length).map fun i =>
    dl (some (mDeriv.getD i 0)) nDeriv[i]?)
  return jDiv out (some (mDeriv.length : ℚ))

/-- `OLMMetaInterval` (Polansky pg. 303-304), meta-interval form: over the
order-1 absolute derivatives, each index `i` of the full derivative range
forms `delta(mDeriv[i], mDeriv[i + 1])` and `delta(nDeriv[i], nDeriv[i + 1])`
(the last `i` reads one slot past the end, an undefined operand), accumulates
their running `Math.max` into `maxInt`, and contributes
`psi(mDelta, nDelta)`; the sum is divided by `out.length * maxInt`.
`derivate(1, ...)` cannot throw for a valid Morph, so the core is used. -/
def MorphologicalMetric.OLMMetaInterval (mm : MorphologicalMetric)
    (psi dl : JsNum → JsNum → JsNum) : JsNum :=
  let mDeriv := derivateCore mm.morphs.1.data true 1
  let nDeriv := derivateCore mm.morphs.2.data true 1
  let mDelta := fun i => dl mDeriv[i]? mDeriv[i + 1]?
  let nDelta := fun i => dl nDeriv[i]? nDeriv[i + 1]?
  let maxInt := (List.range mDeriv.length).foldl
    (fun acc i => jMax (jMax acc (mDelta i)) (nDelta i)) (some 0)
  let out := (List.range mDeriv.length).map fun i => psi (mDelta i) (nDelta i)
  jDiv (jSum out) (jMul (some (out.length : ℚ)) maxInt)

/-- `OLD` (ordered linear direction, Polansky pg. 312-313): the fraction of
adjacent positions whose `directionInterval` classifications differ, with
grain `1 / (data.length - 1)`.  Performs no `ordered` check and cannot
throw. -/
def MorphologicalMetric.OLD (mm : MorphologicalMetric) : ℚ :=
  let mDI := mm.morphs.1.directionInterval
  let nDI := mm.morphs.2.directionInterval
  let diffs := (List.range mDI.length).map fun i => diffSgn (mDI.getD i 0) nDI[i]?
  let grain := 1 / ((mm.morphs.1.data.length : ℚ) - 1)
  diffs.sum * grain

/-- `OCD` (ordered combinatorial direction, Polansky pg. 313-314): the
fraction of combinatorial pairs whose `sgn` classifications differ, with grain
`1 / Lm(data.length)`.  Performs no `ordered` check and cannot throw. -/
def MorphologicalMetric.OCD (mm : MorphologicalMetric) : ℚ :=
  let mSgns := (combPairs mm.morphs.1.data).map fun p => sgn p.1 p.2
  let nSgns := (combPairs mm.morphs.2.data).map fun p => sgn p.1 p.2
  let diffs := (List.range mSgns.length).map fun i => diffSgn (mSgns.getD i 0) nSgns[i]?
  let grain := 1 / Lm (mm.morphs.1.data.length : ℚ)
  diffs.sum * grain

/-- `OLMCanonical` (Polansky pg. 318-319): mean of
`Math.abs(mDeltas[i] - nDeltas[i])` over the adjacent `delta`-intervals,
divided by `data.length - 1`. -/
def MorphologicalMetric.OLMCanonical (mm : MorphologicalMetric)
    (dl : ℚ → ℚ → ℚ) : JsNum :=
  let m := mm.morphs.1
  let n := mm.morphs.2
  let mDeltas := adjacentDeltas dl m.data
  let nDeltas := adjacentDeltas dl n.data
  let diffs := (List.range mDeltas.length).map fun i =>
    jAbs (jSub (some (mDeltas.getD i 0)) nDeltas[i]?)
  jDiv (jSum diffs) (some ((m.data.length : ℚ) - 1))

/-- `OLMScaled` (Polansky pg. 319): as `OLMCanonical` but the sum is divided
by `(data.length - 1) * maxInt`, `maxInt` being the largest `delta`-interval
seen across both operands. -/
def MorphologicalMetric.OLMScaled (mm : MorphologicalMetric)
    (dl : ℚ → ℚ → ℚ) : JsNum :=
  let m := mm.morphs.1
  let n := mm.morphs.2
  let mDeltas := adjacentDeltas dl m.data
  let nDeltas := adjacentDeltas dl n.data
  let maxInt := nDeltas.foldl max (mDeltas.foldl max 0)
  let diffs := (List.range mDeltas.length).map fun i =>
    jAbs (jSub (some (mDeltas.getD i 0)) nDeltas[i]?)
  jDiv (jSum diffs) (some (((m.data.length : ℚ) - 1) * maxInt))

/-- `OLMRelativeScaling` (Polansky pg. 322): each operand's adjacent
`delta`-intervals are normalized by that operand's own maximum before the
per-index absolute differences are averaged. -/
def MorphologicalMetric.OLMRelativeScaling (mm : MorphologicalMetric)
    (dl : ℚ → ℚ → ℚ) : JsNum :=
  let m := mm.morphs.1
  let n := mm.morphs.2
  let mDeltas := adjacentDeltas dl m.data
  let mMaxInt := mDeltas.foldl max 0
  let nDeltas := adjacentDeltas dl n.data
  let nMaxInt := nDeltas.foldl max 0
  let normedM := mDeltas.map fun d => jDiv (some d) (some mMaxInt)
  let normedN := nDeltas.map fun d => jDiv (some d) (some nMaxInt)
  let diffs := (List.range normedM.length).map fun i =>
    jAbs (jSub (normedM.getD i none) ((normedN[i]? : Option JsNum).join))
  jDiv (jSum diffs) (some (mDeltas.length : ℚ))

/-- The `OLM` dispatcher: `scaling` `'none'` calls `OLMCanonical`,
`'relative'` calls `OLMRelativeScaling`, `'absolute'` calls `OLMScaled`. -/
def MorphologicalMetric.OLM (mm : MorphologicalMetric) (scaling : Scaling)
    (dl : ℚ → ℚ → ℚ) : JsNum :=
  match scaling with
  | .none => mm.OLMCanonical dl
  | .relative => mm.OLMRelativeScaling dl
  | .absolute => mm.OLMScaled dl

/-- `ULMAbsoluteScaling` (Polansky pg. 321): the absolute difference of the
two operands' mean adjacent `delta`-intervals, divided by the largest interval
seen across both operands. -/
def MorphologicalMetric.ULMAbsoluteScaling (mm : MorphologicalMetric)
    (dl : ℚ → ℚ → ℚ) : JsNum :=
  let m := mm.morphs.1
  let n := mm.morphs.2
  let mDeltas := adjacentDeltas dl m.data
  let nDeltas := adjacentDeltas dl n.data
  let maxInt := nDeltas.foldl max (mDeltas.foldl max 0)
  let mNormed := mDeltas.sum / (mDeltas.length : ℚ)
  let nNormed := nDeltas.sum / (nDeltas.length : ℚ)
  jDiv (some |mNormed - nNormed|) (some maxInt)

/-- `ULMRelativeScaling` (Polansky pg. 321-322): each operand's sum of
adjacent `delta`-intervals is divided by `length * ownMax` before the absolute
difference is taken. -/
def MorphologicalMetric.ULMRelativeScaling (mm : MorphologicalMetric)
    (dl : ℚ → ℚ → ℚ) : JsNum :=
  let m := mm.morphs.1
  let n := mm.morphs.2
  let mDeltas := adjacentDeltas dl m.data
  let mMaxint := mDeltas.foldl max 0
  let nDeltas := adjacentDeltas dl n.data
  let nMaxint := nDeltas.foldl max 0
  let mNormed := jDiv (some mDeltas.sum) (some ((mDeltas.length : ℚ) * mMaxint))
  let nNormed := jDiv (some nDeltas.sum) (some ((nDeltas.length : ℚ) * nMaxint))
  jAbs (jSub mNormed nNormed)

/-- `ULM` (Polansky pg. 320): with scaling `'none'`, the absolute difference
of the two operands' mean adjacent `delta`-intervals; otherwise dispatches to
the scaled forms. -/
def MorphologicalMetric.ULM (mm : MorphologicalMetric) (scaling : Scaling)
    (dl : ℚ → ℚ → ℚ) : JsNum :=
  match scaling with
  | .none =>
    let m := mm.morphs.1
    let n := mm.morphs.2
    let mDeltas := adjacentDeltas dl m.data
    let mNormed := mDeltas.sum / (mDeltas.length : ℚ)
    let nDeltas := adjacentDeltas dl n.data
    let nNormed := nDeltas.sum / (nDeltas.length : ℚ)
    some |mNormed - nNormed|
  | .relative => mm.ULMRelativeScaling dl
  | .absolute => mm.ULMAbsoluteScaling dl

/-- `OCM` (ordered combinatorial magnitude, Polansky pg. 323): the per-pair
absolute differences of the two operands' combinatorial `delta`-intervals
(relative scaling first normalizes each operand's intervals by its own
maximum) are summed and divided by `Lm(data.length)`; absolute scaling further
divides by the shared maximum interval. -/
def MorphologicalMetric.OCM (mm : MorphologicalMetric) (dl : ℚ → ℚ → ℚ)
    (scaling : Scaling) : JsNum :=
  let m := mm.morphs.1
  let n := mm.morphs.2
  let mDeltas := (combPairs m.data).map fun p => dl p.1 p.2
  let nDeltas := (combPairs n.data).map fun p => dl p.1 p.2
  let maxInt := nDeltas.foldl max (mDeltas.foldl max 0)
  let mMaxInt := mDeltas.foldl max 0
  let nMaxInt := nDeltas.foldl max 0
  let diffs := (List.range mDeltas.length).map fun i =>
    match scaling with
    | .relative =>
      jAbs (jSub (jDiv (some (mDeltas.getD i 0)) (some mMaxInt))
        (jDiv (nDeltas[i]? : Option ℚ) (some nMaxInt)))
    | _ => jAbs (jSub (some (mDeltas.getD i 0)) nDeltas[i]?)
  let out := jDiv (jSum diffs) (some (Lm (m.data.length : ℚ)))
  match scaling with
  | .absolute => jDiv out (some maxInt)
  | _ => out

/-- `UCM` (unordered combinatorial magnitude, Polansky pg. 325): the absolute
difference of the two operands' mean combinatorial `delta`-intervals, with the
same none/absolute/relative scaling pattern as `OCM`. -/
def MorphologicalMetric.UCM (mm : MorphologicalMetric) (dl : ℚ → ℚ → ℚ)
    (scaling : Scaling) : JsNum :=
  let m := mm.morphs.1
  let n := mm.morphs.2
  let mInts := combPairs m.data
  let nInts := combPairs n.data
  let mDeltas := mInts.map fun p => dl p.1 p.2
  let nDeltas := nInts.map fun p => dl p.1 p.2
  let maxInt := nDeltas.foldl max (mDeltas.foldl max 0)
  let mMaxInt := mDeltas.foldl max 0
  let nMaxInt := nDeltas.foldl max 0
  let mSum : JsNum := match scaling with
    | .relative => jDiv (some mDeltas.sum) (some mMaxInt)
    | _ => some mDeltas.sum
  let nSum : JsNum := match scaling with
    | .relative => jDiv (some nDeltas.sum) (some nMaxInt)
    | _ => some nDeltas.sum
  let out := jAbs (jSub (jDiv mSum (some (mInts.length : ℚ)))
    (jDiv nSum (some (nInts.length : ℚ))))
  match scaling with
  | .absolute => jDiv out (some maxInt)
  | _ => out

/-- The worked-example Morph `[0, 2, 4, 1, 0]` (spec scenario 1). -/
def mEx : Morph := ⟨[0, 2, 4, 1, 0], by simp⟩

/-- The worked-example Morph `[0, 2, 5, 4, 1]` (spec scenario 2). -/
def mDir : Morph := ⟨[0, 2, 5, 4, 1], by simp⟩

/-- The worked-example Morph `[0, 2, 5, 2, 1]` (spec scenario 3). -/
def mSob : Morph := ⟨[0, 2, 5, 2, 1], by simp⟩

/-- The worked-example Morph `[4, 4, 1, 6, 2]` (spec scenario 3). -/
def nSob : Morph := ⟨[4, 4, 1, 6, 2], by simp⟩

/-- Ordered metric over `mSob` and `nSob`. -/
def mmSob : MorphologicalMetric := ⟨(mSob, nSob), true⟩

/-- The worked-example Morph `[1, 6, 2, 5, 11]` (spec scenario 4). -/
def mSc4 : Morph := ⟨[1, 6, 2, 5, 11], by simp⟩

/-- The worked-example Morph `[3, 15, 13, 2, 9]` (spec scenario 4). -/
def nSc4 : Morph := ⟨[3, 15, 13, 2, 9], by simp⟩

/-- Ordered metric over `mSc4` and `nSc4`. -/
def mmSc4 : MorphologicalMetric := ⟨(mSc4, nSc4), true⟩

/-- A two-point Morph `[0, 2]`. -/
def mTwoA : Morph := ⟨[0, 2], by simp⟩

/-- A two-point Morph `[0, 3]`. -/
def mTwoB : Morph := ⟨[0, 3], by simp⟩

/-- A three-point Morph `[0, 3, 1]`. -/
def mThree : Morph := ⟨[0, 3, 1], by simp⟩

/-- An unordered metric over the equal-length Morphs `mTwoA` and `mTwoB`. -/
def mmUnord : MorphologicalMetric := ⟨(mTwoA, mTwoB), false⟩

lemma absList_length (l : List ℚ) : (absList l).length = l.length := by
  simp [absList]

lemma diff1_length (l : List ℚ) : (diff1 l).length = l.length - 1 := by
  simp [diff1, List.length_zip, List.length_tail]

lemma mem_absList_nonneg {x : ℚ} {l : List ℚ} (h : x ∈ absList l) : 0 ≤ x := by
  simp only [absList, List.mem_map] at h
  obtain ⟨a, -, rfl⟩ := h
  exact abs_nonneg a

lemma derivateCore_length (data : List ℚ) (ab : Bool) :
    ∀ k, (derivateCore data ab k).length = data.length - k
  | 0 => by cases ab <;> simp [derivateCore, absList_length]
  | 1 => by cases ab <;> simp [derivateCore, absList_length, diff1_length]
  | (k + 2) => by
    have ih := derivateCore_length data ab (k + 1)
    cases ab <;>
      simp [derivateCore, absList_length, diff1_length, ih] <;> omega

lemma derivateCore_true_eq_iterate (data : List ℚ) :
    ∀ k, 1 ≤ k →
      derivateCore data true k = (fun l => absList (diff1 l))^[k] data
  | 0, h => absurd h (by omega)
  | 1, _ => by simp [derivateCore]
  | (k + 2), _ => by
    have ih := derivateCore_true_eq_iterate data (k + 1) (by omega)
    rw [Function.iterate_succ_apply']
    simp [derivateCore, ih]

lemma derivateCore_true_nonneg (data : List ℚ) (k : ℕ) {x : ℚ}
    (h : x ∈ derivateCore data true k) : 0 ≤ x := by
  match k with
  | 0 => exact mem_absList_nonneg (by simpa [derivateCore] using h)
  | 1 => exact mem_absList_nonneg (by simpa [derivateCore] using h)
  | k + 2 => exact mem_absList_nonneg (by simpa [derivateCore] using h)

lemma derivate_ok (m : Morph) (k : ℕ) (ab : Bool) (h : k < m.data.length) :
    m.derivate k ab = Except.ok (derivateCore m.data ab k) := by
  have h1 : ¬((m.data.length : ℤ) - (k : ℤ) < 1) := by omega
  have h2 : ¬((k : ℤ) < 0) := by omega
  simp [Morph.derivate, h1, h2]

lemma derivate_ok_int (m : Morph) (o : ℤ) (ab : Bool) (h0 : 0 ≤ o)
    (h1 : o < (m.data.length : ℤ)) :
    m.derivate o ab = Except.ok (derivateCore m.data ab o.toNat) := by
  unfold Morph.derivate
  rw [if_neg (by omega), if_neg (by omega)]

lemma foldl_count3 {α : Type} (f : (ℕ × ℕ × ℕ) → α → (ℕ × ℕ × ℕ))
    (hf : ∀ acc a, sum3 (f acc a) = sum3 acc + 1) :
    ∀ (l : List α) (acc : ℕ × ℕ × ℕ),
      sum3 (l.foldl f acc) = sum3 acc + l.length := by
  intro l
  induction l with
  | nil => intro acc; simp
  | cons x xs ih =>
    intro acc
    simp only [List.foldl_cons, List.length_cons]
    rw [ih, hf]
    omega

lemma sum_map_add (f g : ℕ → ℕ) :
    ∀ (l : List ℕ),
      (l.map fun x => f x + g x).sum = (l.map f).sum + (l.map g).sum := by
  intro l
  induction l with
  | nil => simp
  | cons x xs ih => simp [ih]; omega

lemma sum_range_reflect :
    ∀ (m : ℕ), ((List.range m).map fun i => m - i).sum * 2 = m * (m + 1) := by
  intro m
  induction m with
  | zero => simp
  | succ m ih =>
    rw [List.range_succ, List.map_append, List.sum_append]
    have hcongr : (List.range m).map (fun i => m + 1 - i) =
        (List.range m).map (fun i => (m - i) + 1) := by
      apply List.map_congr_left
      intro a ha
      have := List.mem_range.mp ha
      omega
    rw [hcongr, sum_map_add (fun i => m - i) (fun _ => 1)]
    have hones : ∀ (l : List ℕ), (l.map fun _ => 1).sum = l.length := by
      intro l
      induction l with
      | nil => simp
      | cons x xs ih2 => simp [ih2]; omega
    rw [hones, List.length_range]
    simp only [List.map_cons, List.map_nil, List.sum_cons, List.sum_nil]
    have hm : m + 1 - m = 1 := by omega
    rw [hm]
    nlinarith [ih]

lemma combPairs_length (data : List ℚ) :
    (combPairs data).length * 2 = data.length * (data.length - 1) := by
  unfold combPairs
  rw [List.length_flatMap]
  have h1 : List.map
      (List.length ∘ fun i => (List.range' (i + 1) (data.length - (i + 1))).map
        fun j => (data.getD i 0, data.getD j 0))
      (List.range (data.length - 1)) =
      (List.range (data.length - 1)).map fun i => (data.length - 1) - i := by
    apply List.map_congr_left
    intro a ha
    have := List.mem_range.mp ha
    simp only [Function.comp_apply, List.length_map, List.length_range']
    omega
  rw [h1, sum_range_reflect]
  cases data with
  | nil => simp
  | cons x xs =>
    simp only [List.length_cons, Nat.add_sub_cancel]
    ring

lemma combPairs_mem {data : List ℚ} {p : ℚ × ℚ} (h : p ∈ combPairs data) :
    ∃ i j, i < j ∧ j < data.length ∧ p = (data.getD i 0, data.getD j 0) := by
  unfold combPairs at h
  rw [List.mem_flatMap] at h
  obtain ⟨i, hi, hp⟩ := h
  rw [List.mem_map] at hp
  obtain ⟨j, hj, rfl⟩ := hp
  rw [List.mem_range] at hi
  rw [List.mem_range'] at hj
  obtain ⟨t, ht, rfl⟩ := hj
  exact ⟨i, i + 1 + 1 * t, by omega, by omega, rfl⟩

lemma zip_tail_getElem? :
    ∀ (l : List ℚ) (i : ℕ), i + 1 < l.length →
      (l.zip l.tail)[i]? = some (l.getD i 0, l.getD (i + 1) 0)
  | [], i, h => by simp at h
  | [a], i, h => by simp at h
  | a :: b :: rest, 0, h => by simp
  | a :: b :: rest, (i + 1), h => by
    have ih := zip_tail_getElem? (b :: rest) i (by simpa using h)
    simpa using ih

lemma foldl_jAdd_noneAcc : ∀ (l : List JsNum), l.foldl jAdd none = none := by
  intro l
  induction l with
  | nil => rfl
  | cons x xs ih =>
    have hx : jAdd none x = none := by cases x <;> rfl
    simp only [List.foldl_cons, hx]
    exact ih

lemma jSum_of_mem_none {l : List JsNum} (h : none ∈ l) : jSum l = none := by
  unfold jSum
  generalize some (0 : ℚ) = acc
  induction l generalizing acc with
  | nil => simp at h
  | cons x xs ih =>
    rcases List.mem_cons.mp h with hx | hxs
    · subst hx
      have : jAdd acc none = none := by cases acc <;> rfl
      simp only [List.foldl_cons, this]
      exact foldl_jAdd_noneAcc xs
    · simp only [List.foldl_cons]
      exact ih hxs (jAdd acc x)


/-- C1: for every Morph with data `s` and every order `k` with
`1 ≤ k < len(s)`, `derivate(k)` returns a list of length `len(s) - k`;
`derivate(0)` returns `s` unchanged; and with `absolute = false`, for every
`k ≥ 2`, `derivate(k)` equals `derivate(1)` applied to the result of
`derivate(k - 1)`. -/
theorem spec_C1 (m : Morph) (k : ℕ) (hk1 : 1 ≤ k) (hk2 : k < m.data.length) :
    (∃ l, m.derivate k false = Except.ok l ∧ l.length = m.data.length - k)
    ∧ m.derivate 0 false = Except.ok m.data
    ∧ (2 ≤ k →
        ∃ l2, m.derivate ((k : ℤ) - 1) false = Except.ok l2 ∧
          ∃ h2 : 2 ≤ l2.length,
            m.derivate k false = Morph.derivate ⟨l2, h2⟩ 1 false) := by
  have hm2 := m.two_le
  refine ⟨⟨derivateCore m.data false k, derivate_ok m k false hk2,
    derivateCore_length m.data false k⟩, ?_, ?_⟩
  · have h := derivate_ok m 0 false (by omega)
    simpa [derivateCore] using h
  · intro hk3
    have hcast : (k : ℤ) - 1 = ((k - 1 : ℕ) : ℤ) := by omega
    have hok := derivate_ok m (k - 1) false (by omega)
    have hlen := derivateCore_length m.data false (k - 1)
    have h2 : 2 ≤ (derivateCore m.data false (k - 1)).length := by omega
    refine ⟨derivateCore m.data false (k - 1), by rw [hcast]; exact hok, h2, ?_⟩
    rw [derivate_ok m k false hk2,
      derivate_ok_int ⟨derivateCore m.data false (k - 1), h2⟩ 1 false
        (by norm_num) (by exact_mod_cast lt_of_lt_of_le one_lt_two h2),
      Int.toNat_one]
    congr 1
    obtain ⟨j, rfl⟩ : ∃ j, k = j + 2 := ⟨k - 2, by omega⟩
    show derivateCore m.data false (j + 2) =
      derivateCore (derivateCore m.data false (j + 1)) false 1
    simp [derivateCore]

/-- Witness for C1: the general theorem applied to `mEx = [0, 2, 4, 1, 0]` at
`k = 2`. -/
theorem spec_C1_witness :
    (∃ l, mEx.derivate (2 : ℕ) false = Except.ok l ∧
      l.length = mEx.data.length - 2)
    ∧ mEx.derivate 0 false = Except.ok mEx.data
    ∧ (2 ≤ 2 →
        ∃ l2, mEx.derivate (((2 : ℕ) : ℤ) - 1) false = Except.ok l2 ∧
          ∃ h2 : 2 ≤ l2.length,
            mEx.derivate (2 : ℕ) false = Morph.derivate ⟨l2, h2⟩ 1 false) :=
  spec_C1 mEx 2 (by decide) (by decide)

/-- C9: Morph construction fails exactly when the sequence has fewer than 2
elements; `derivate(order)` fails exactly when `order < 0` or `order` is not
smaller than the data length, and returns a result in all other cases. -/
theorem spec_C9 :
    (∀ data : List ℚ, (∃ e, mkMorph data = Except.error e) ↔ data.length < 2)
    ∧ (∀ (m : Morph) (order : ℤ) (ab : Bool),
        (∃ e, m.derivate order ab = Except.error e) ↔
          (order < 0 ∨ (m.data.length : ℤ) ≤ order))
    ∧ (∀ (m : Morph) (order : ℤ) (ab : Bool),
        0 ≤ order → order < (m.data.length : ℤ) →
          ∃ l, m.derivate order ab = Except.ok l) := by
  refine ⟨?_, ?_, ?_⟩
  · intro data
    constructor
    · rintro ⟨e, he⟩
      by_contra hlen
      simp [mkMorph, hlen] at he
    · intro hlen
      exact ⟨"Arrays must have at least 2 elements", by simp [mkMorph, hlen]⟩
  · intro m order ab
    constructor
    · rintro ⟨e, he⟩
      by_contra hcond
      push_neg at hcond
      unfold Morph.derivate at he
      rw [if_neg (by omega), if_neg (by omega)] at he
      simp at he
    · intro hcond
      unfold Morph.derivate
      by_cases h1 : (m.data.length : ℤ) - order < 1
      · exact ⟨"Order must be less than the length of the array",
          by rw [if_pos h1]⟩
      · have h2 : order < 0 := by omega
        exact ⟨"Order must be greater than 0", by rw [if_neg h1, if_pos h2]⟩
  · intro m order ab h1 h2
    refine ⟨derivateCore m.data ab order.toNat, ?_⟩
    unfold Morph.derivate
    rw [if_neg (by omega), if_neg (by omega)]

/-- Witness for C9: the empty sequence is rejected, a negative order fails on
`mEx`, and order 3 on the 5-point `mEx` succeeds. -/
theorem spec_C9_witness :
    (∃ e, mkMorph ([] : List ℚ) = Except.error e)
    ∧ (∃ e, mEx.derivate (-1) false = Except.error e)
    ∧ (∃ l, mEx.derivate 3 false = Except.ok l) :=
  ⟨(spec_C9.1 []).mpr (by simp),
    (spec_C9.2.1 mEx (-1) false).mpr (Or.inl (by norm_num)),
    spec_C9.2.2 mEx 3 false (by norm_num) (by decide)⟩

/-- C10: with `absolute = true` the absolute value is applied at every
recursion level, so for `2 ≤ k ≤ len - 1` the result is the `k`-fold iterate
of (elementwise absolute after first difference); it therefore differs in
general from the elementwise absolute of `derivate(k, false)`: on
`[0, 2, 4, 1, 0]`, `derivate(2, true) = [0, 1, 2]` while the elementwise
absolute of `derivate(2, false)` is `[0, 5, 2]`. -/
theorem spec_C10 :
    (∀ (m : Morph) (k : ℕ), 2 ≤ k → k ≤ m.data.length - 1 →
        m.derivate k true =
          Except.ok ((fun l => absList (diff1 l))^[k] m.data))
    ∧ mEx.derivate 2 true = Except.ok [0, 1, 2]
    ∧ (mEx.derivate 2 false).map absList = Except.ok [0, 5, 2]
    ∧ ([0, 1, 2] : List ℚ) ≠ [0, 5, 2] := by
  refine ⟨?_,
    by norm_num [mEx, Morph.derivate, derivateCore, diff1, absList],
    by norm_num [mEx, Morph.derivate, derivateCore, diff1, absList, Except.map],
    by norm_num⟩
  intro m k hk2 hklen
  have hm2 := m.two_le
  rw [derivate_ok m k true (by omega),
    derivateCore_true_eq_iterate m.data k (by omega)]

/-- Witness for C10: the iterate identity applied to `mEx` at `k = 2`. -/
theorem spec_C10_witness :
    mEx.derivate (2 : ℕ) true =
      Except.ok ((fun l => absList (diff1 l))^[2] mEx.data) :=
  spec_C10.1 mEx 2 (by norm_num) (by decide)

lemma directionInterval_getD (m : Morph) (i : ℕ) (h : i + 1 < m.data.length) :
    m.directionInterval.getD i 0 =
      sgn (m.data.getD i 0) (m.data.getD (i + 1) 0) := by
  unfold Morph.directionInterval
  rw [List.getD_eq_getElem?_getD, List.getElem?_map, zip_tail_getElem? m.data i h]
  rfl

/-- C5: for every Morph of length `L`, `generateIntervals` with form
`'combinatorial interval'` produces exactly `Lm(L) = L(L-1)/2` pairs, the
three slots of `linearContourVector` sum to `L - 1`, and the three slots of
`combinatorialContourVector` sum to `Lm(L)`. -/
theorem spec_C5 (m : Morph) :
    m.generateIntervals IntervalIndexForm.combinatorialInterval 1 none none =
      Except.ok (combPairs m.data)
    ∧ ((combPairs m.data).length : ℚ) = Lm (m.data.length : ℚ)
    ∧ (∀ p ∈ combPairs m.data, ∃ i j, i < j ∧ j < m.data.length ∧
        p = (m.data.getD i 0, m.data.getD j 0))
    ∧ sum3 m.linearContourVector = m.data.length - 1
    ∧ ((sum3 m.combinatorialContourVector : ℕ) : ℚ) = Lm (m.data.length : ℚ) := by
  have hm := m.two_le
  obtain ⟨L0, hL⟩ : ∃ L0, m.data.length = L0 + 2 := ⟨m.data.length - 2, by omega⟩
  have hcomb : ((combPairs m.data).length : ℚ) = Lm (m.data.length : ℚ) := by
    have h := combPairs_length m.data
    rw [hL] at h ⊢
    have h1 : L0 + 2 - 1 = L0 + 1 := by omega
    rw [h1] at h
    have h2 : ((combPairs m.data).length : ℚ) * 2 =
        ((L0 : ℚ) + 2) * ((L0 : ℚ) + 1) := by exact_mod_cast h
    unfold Lm
    push_cast
    nlinarith [h2]
  refine ⟨rfl, hcomb, ?_, ?_, ?_⟩
  · intro p hp
    exact combPairs_mem hp
  · unfold Morph.linearContourVector
    rw [foldl_count3 _ ?hstep (derivateCore m.data false 1) (0, 0, 0)]
    case hstep =>
      intro acc a
      unfold sum3
      split_ifs <;> dsimp <;> ring
    rw [derivateCore_length]
    simp [sum3]
  · have hlen : sum3 m.combinatorialContourVector = (combPairs m.data).length := by
      unfold Morph.combinatorialContourVector
      rw [foldl_count3 _ ?hstep2 (combPairs m.data) (0, 0, 0)]
      case hstep2 =>
        intro acc a
        unfold sum3
        split_ifs <;> dsimp <;> ring
      simp [sum3]
    rw [hlen, hcomb]

/-- C8: `directionInterval` has length `len(data) - 1` and classifies each
adjacent pair by `sgn`: 1 when the sequence decreases, 0 when the values are
equal, -1 when it increases; in particular on `[0, 2, 5, 4, 1]` it is
`[-1, -1, 1, 1]`. -/
theorem spec_C8 :
    (∀ m : Morph, m.directionInterval.length = m.data.length - 1
      ∧ ∀ i, i + 1 < m.data.length →
          (m.data.getD (i + 1) 0 < m.data.getD i 0 →
            m.directionInterval.getD i 0 = 1)
          ∧ (m.data.getD i 0 = m.data.getD (i + 1) 0 →
            m.directionInterval.getD i 0 = 0)
          ∧ (m.data.getD i 0 < m.data.getD (i + 1) 0 →
            m.directionInterval.getD i 0 = -1))
    ∧ mDir.directionInterval = [-1, -1, 1, 1] := by
  constructor
  · intro m
    constructor
    · unfold Morph.directionInterval
      rw [List.length_map, List.length_zip, List.length_tail]
      have := m.two_le
      omega
    · intro i hi
      refine ⟨?_, ?_, ?_⟩ <;> intro hcmp <;>
        rw [directionInterval_getD m i hi] <;> simp only [sgn]
      · rw [if_pos hcmp]
      · rw [if_neg (by rw [hcmp]; exact lt_irrefl _), if_pos hcmp]
      · rw [if_neg (lt_asymm hcmp), if_neg (ne_of_lt hcmp)]
  · norm_num [mDir, Morph.directionInterval, sgn, List.zip]

/-- Witness for C8: the 5-point example `[0, 2, 5, 4, 1]` rises at position 0
(classification -1) and its direction interval has 4 entries. -/
theorem spec_C8_witness :
    mDir.directionInterval.length = mDir.data.length - 1
    ∧ mDir.directionInterval.getD 0 0 = -1 :=
  ⟨(spec_C8.1 mDir).1,
    ((spec_C8.1 mDir).2 0 (by norm_num [mDir])).2.2 (by norm_num [mDir])⟩

lemma jSub_none_left (b : JsNum) : jSub none b = none := by cases b <;> rfl

lemma jSub_none_right (a : JsNum) : jSub a none = none := by cases a <;> rfl

lemma deltaAbs_none_left (b : JsNum) : deltaAbs none b = none := by
  simp [deltaAbs, jSub_none_left, jAbs]

lemma deltaAbs_none_right (a : JsNum) : deltaAbs a none = none := by
  simp [deltaAbs, jSub_none_right, jAbs]

lemma jDiv_none_left (b : JsNum) : jDiv none b = none := by cases b <;> rfl

/-- C2 (code bug): with `weights` omitted, `SobalevOLM` fills a default weight
vector of length `maxOrder - minOrder` — one short of the
`maxOrder - minOrder + 1` its own validation for supplied weights demands —
so the last weighted term multiplies a per-order mean by an undefined entry
and the overall result is NaN (`none`), not the claimed unweighted average.
Supplying the intended all-ones vector of the correct length yields that
average, here `(3 + 7/4 + 5/3) / 3 = 77/36`. -/
theorem spec_C2_bug :
    mmSob.SobalevOLM 2 0 none = Except.ok none
    ∧ mmSob.SobalevOLM 2 0 (some [1, 1, 1]) = Except.ok (some (77 / 36)) := by
  constructor <;>
    norm_num [mmSob, mSob, nSob, MorphologicalMetric.SobalevOLM, Morph.derivate,
      derivateCore, diff1, absList, jSum, jAdd, jSub, jMul, jDiv, jAbs,
      List.range_succ, List.range', List.mapM, List.mapM.loop, List.replicate,
      Bind.bind, Except.bind, Pure.pure, Except.pure]

/-- C3 (code bug): `OLMMetaInterval` maps over every index of the order-1
absolute derivative and reads `mDeriv[i + 1]` at the last one, one slot past
the end; with the default comparators that undefined operand makes the final
`psi` term NaN, so every invocation returns NaN (`none`) — never the claimed
normalized average of the meta-intervals.  Shown for every metric and for the
concrete pair `[1, 6, 2, 5, 11]`, `[3, 15, 13, 2, 9]`. -/
theorem spec_C3_bug :
    (∀ mm : MorphologicalMetric, mm.OLMMetaInterval deltaAbs deltaAbs = none)
    ∧ mmSc4.OLMMetaInterval deltaAbs deltaAbs = none := by
  have hgen : ∀ mm : MorphologicalMetric,
      mm.OLMMetaInterval deltaAbs deltaAbs = none := by
    intro mm
    simp only [MorphologicalMetric.OLMMetaInterval]
    set D := derivateCore mm.morphs.1.data true 1 with hD
    set N := derivateCore mm.morphs.2.data true 1 with hN
    have hlen : 1 ≤ D.length := by
      rw [hD, derivateCore_length]
      have := mm.morphs.1.two_le
      omega
    have hnone : none ∈ (List.range D.length).map fun i =>
        deltaAbs (deltaAbs D[i]? D[i + 1]?) (deltaAbs N[i]? N[i + 1]?) := by
      rw [List.mem_map]
      refine ⟨D.length - 1, List.mem_range.mpr (by omega), ?_⟩
      have hD2 : D[D.length - 1 + 1]? = none := by
        rw [List.getElem?_eq_none_iff]
        omega
      rw [hD2, deltaAbs_none_right, deltaAbs_none_left]
    rw [jSum_of_mem_none hnone, jDiv_none_left]
  exact ⟨hgen, hgen mmSc4⟩

/-- C7: on the ordered pair `m = [1, 6, 2, 5, 11]`, `n = [3, 15, 13, 2, 9]`
with default options, `OLMCanonical() = 4.5`, `ULM() = 3.5`, `OCM() = 5.2`,
and `UCM()` is exactly `12/5 = 2.4`. -/
theorem spec_C7 :
    mmSc4.OLMCanonical deltaQAbs = some (9 / 2)
    ∧ mmSc4.ULM Scaling.none deltaQAbs = some (7 / 2)
    ∧ mmSc4.OCM deltaQAbs Scaling.none = some (26 / 5)
    ∧ mmSc4.UCM deltaQAbs Scaling.none = some (12 / 5) := by
  refine ⟨?_, ?_, ?_, ?_⟩ <;>
    norm_num [mmSc4, mSc4, nSc4, MorphologicalMetric.OLMCanonical,
      MorphologicalMetric.ULM, MorphologicalMetric.OCM,
      MorphologicalMetric.UCM, adjacentDeltas, deltaQAbs, combPairs,
      jSum, jAdd, jSub, jDiv, jAbs, Lm, List.range_succ, List.range',
      List.flatMap, List.zip]

/-- C6: on every ordered metric over equal-length Morphs with the default
absolute-difference comparator, `OLM({scaling:'none'})` equals
`OLMCanonical()`, and the original form `OLMOriginal({squared:false,
order:1})` equals `OLMGeneral()` with its default comparator. -/
theorem spec_C6 (mm : MorphologicalMetric) (ho : mm.ordered = true)
    (hlen : mm.morphs.1.data.length = mm.morphs.2.data.length) :
    mm.OLM Scaling.none deltaQAbs = mm.OLMCanonical deltaQAbs
    ∧ mm.OLMOriginal 1 = mm.OLMGeneral deltaAbs 1 := by
  refine ⟨rfl, ?_⟩
  have h1 := mm.morphs.1.two_le
  have h2 := mm.morphs.2.two_le
  have hd1 : mm.morphs.1.derivate 1 true =
      Except.ok (derivateCore mm.morphs.1.data true 1) := by
    have h := derivate_ok_int mm.morphs.1 1 true (by norm_num)
      (by exact_mod_cast lt_of_lt_of_le one_lt_two h1)
    rwa [Int.toNat_one] at h
  have hd2 : mm.morphs.2.derivate 1 true =
      Except.ok (derivateCore mm.morphs.2.data true 1) := by
    have h := derivate_ok_int mm.morphs.2 1 true (by norm_num)
      (by exact_mod_cast lt_of_lt_of_le one_lt_two h2)
    rwa [Int.toNat_one] at h
  set D := derivateCore mm.morphs.1.data true 1 with hDdef
  set N := derivateCore mm.morphs.2.data true 1 with hNdef
  have hDlen : D.length = mm.morphs.1.data.length - 1 := by
    rw [hDdef, derivateCore_length]
  have hNlen : N.length = mm.morphs.1.data.length - 1 := by
    rw [hNdef, derivateCore_length, hlen]
  norm_num [MorphologicalMetric.OLMOriginal, MorphologicalMetric.OLMGeneral,
    ho, hd1, hd2, Bind.bind, Except.bind, Pure.pure, Except.pure]
  congr 1
  · congr 1
    apply List.map_congr_left
    intro i hi
    have hiD : i < D.length := List.mem_range.mp hi
    have hiN : i < N.length := by omega
    rw [List.getElem?_eq_getElem hiN, List.getElem?_eq_getElem hiD]
    simp only [Option.getD_some, deltaAbs, jAbs, jSub]
    have ha : 0 ≤ D[i] := derivateCore_true_nonneg _ _ (List.getElem_mem hiD)
    have hb : 0 ≤ N[i] := derivateCore_true_nonneg _ _ (List.getElem_mem hiN)
    rw [abs_of_nonneg ha, abs_of_nonneg hb]
  · rw [hDlen, Nat.cast_sub (by omega : 1 ≤ mm.morphs.1.data.length)]
    norm_num

/-- Witness for C6: the equivalences instantiated on the concrete ordered
pair `[1, 6, 2, 5, 11]`, `[3, 15, 13, 2, 9]`. -/
theorem spec_C6_witness :
    mmSc4.OLM Scaling.none deltaQAbs = mmSc4.OLMCanonical deltaQAbs
    ∧ mmSc4.OLMOriginal 1 = mmSc4.OLMGeneral deltaAbs 1 :=
  spec_C6 mmSc4 rfl rfl

/-- Counterexample for C4: `OLMGeneral` performs no `ordered` check, so on an
unordered metric over `[0, 2]` and `[0, 3]` (whose construction succeeds) it
returns the value `1` instead of failing as the claim asserts. -/
theorem spec_C4_counterexample :
    mkMorphologicalMetric (mTwoA, mTwoB) false = Except.ok mmUnord
    ∧ mmUnord.ordered = false
    ∧ mmUnord.OLMGeneral deltaAbs 1 = Except.ok (some 1) := by
  refine ⟨?_, rfl, ?_⟩
  · norm_num [mkMorphologicalMetric, mmUnord]
  · norm_num [mmUnord, mTwoA, mTwoB, MorphologicalMetric.OLMGeneral,
      Morph.derivate, derivateCore, diff1, absList, deltaAbs, jSum, jAdd,
      jSub, jDiv, jAbs, List.range_succ, Bind.bind, Except.bind, Pure.pure,
      Except.pure]

/-- C4 amended: ordered-mode construction does fail on mismatched operand
lengths, and `OLMOriginal` and `SobalevOLM` do fail on an unordered metric;
but `OLMGeneral`, `OLMMetaInterval`, `OLD` and `OCD` perform no `ordered`
check and return a result (not an error) when invoked on an unordered
metric, shown on the unordered equal-length pair `[0, 2]`, `[0, 3]`. -/
theorem spec_C4_amended :
    (∀ p : Morph × Morph, p.1.data.length ≠ p.2.data.length →
        mkMorphologicalMetric p true =
          Except.error "Ordered mms must have the same number of points")
    ∧ (∀ (mm : MorphologicalMetric) (o : ℤ) (mo mi : ℕ)
        (w : Option (List ℚ)), mm.ordered = false →
          mm.OLMOriginal o = Except.error "Morphs must be ordered for OLM"
          ∧ mm.SobalevOLM mo mi w =
              Except.error "Morphs must be ordered for SobalevOLM")
    ∧ (mmUnord.OLMGeneral deltaAbs 1 = Except.ok (some 1)
        ∧ mmUnord.OLMMetaInterval deltaAbs deltaAbs = none
        ∧ mmUnord.OLD = 0
        ∧ mmUnord.OCD = 0) := by
  refine ⟨?_, ?_, ?_, ?_, ?_, ?_⟩
  · intro p hne
    unfold mkMorphologicalMetric
    rw [if_pos ⟨rfl, hne⟩]
  · intro mm o mo mi w hord
    constructor
    · simp [MorphologicalMetric.OLMOriginal, hord, Bind.bind, Except.bind,
        throw, throwThe, MonadExceptOf.throw]
    · simp [MorphologicalMetric.SobalevOLM, hord, Bind.bind, Except.bind,
        throw, throwThe, MonadExceptOf.throw]
  · norm_num [mmUnord, mTwoA, mTwoB, MorphologicalMetric.OLMGeneral,
      Morph.derivate, derivateCore, diff1, absList, deltaAbs, jSum, jAdd,
      jSub, jDiv, jAbs, List.range_succ, Bind.bind, Except.bind, Pure.pure,
      Except.pure]
  · norm_num [mmUnord, mTwoA, mTwoB, MorphologicalMetric.OLMMetaInterval,
      derivateCore, diff1, absList, deltaAbs, jSum, jAdd, jSub, jMul, jDiv,
      jAbs, jMax, List.range_succ, List.zip]
  · norm_num [mmUnord, mTwoA, mTwoB, MorphologicalMetric.OLD,
      Morph.directionInterval, sgn, diffSgn, List.range_succ, List.zip]
  · norm_num [mmUnord, mTwoA, mTwoB, MorphologicalMetric.OCD, combPairs,
      sgn, diffSgn, Lm, List.range_succ, List.range', List.flatMap]

/-- Witness for C4 (amended): construction of an ordered metric over the
2-point `[0, 2]` and the 3-point `[0, 3, 1]` fails, and `OLMOriginal` on the
unordered metric over `[0, 2]`, `[0, 3]` fails. -/
theorem spec_C4_amended_witness :
    mkMorphologicalMetric (mTwoA, mThree) true =
      Except.error "Ordered mms must have the same number of points"
    ∧ mmUnord.OLMOriginal 1 =
        Except.error "Morphs must be ordered for OLM" :=
  ⟨spec_C4_amended.1 (mTwoA, mThree) (by decide),
    (spec_C4_amended.2.1 mmUnord 1 2 0 none rfl).1⟩

/-- Witness for C5: the invariants instantiated on `[0, 2, 5, 4, 1]`, and the
pair characterization discharged at the concrete pair `(0, 2)`. -/
theorem spec_C5_witness :
    ((combPairs mDir.data).length : ℚ) = Lm (mDir.data.length : ℚ)
    ∧ sum3 mDir.linearContourVector = mDir.data.length - 1
    ∧ (∃ i j, i < j ∧ j < mDir.data.length ∧
        ((0 : ℚ), (2 : ℚ)) = (mDir.data.getD i 0, mDir.data.getD j 0)) :=
  ⟨(spec_C5 mDir).2.1, (spec_C5 mDir).2.2.2.1,
    (spec_C5 mDir).2.2.1 (0, 2)
      (by norm_num [combPairs, mDir, List.range_succ, List.range',
        List.flatMap])⟩
